import Mathlib

/-!
Verification development for the `github_crawler` repository.

The repository contains two iterations of the same crawler:
`parser.py` (class `GitHubCrawler`) and `src/parser/` (class `Parser` with
`utils.py`).  This file gives a shallow embedding of the pure data
transformations and of the control flow of the effectful functions:

* HTML documents (`BeautifulSoup` trees) are modelled by the inductive
  type `Node`; the CSS selects used by the code (`.d-inline-flex.flex-items-center`,
  `span`, `[name='octolytics-dimension-user_login']`) are modelled by
  document-order traversals of that tree.
* Python `dict` insertion (`d[k] = v`) is modelled by `pyDictInsert` on
  association lists, preserving Python's insertion-order semantics.
* The network is modelled by an oracle `Nat → AttemptResult` giving the
  outcome of the i-th `client.get` call of one logical fetch, and the
  process-wide random source behind `random.choice` is modelled by a
  selection function `List String → String`.
* Python exceptions (`IndexError`, `KeyError`, `TypeError`) are modelled
  by the `Except PyErr` monad; strings are treated at their ASCII byte
  level (`Char.toNat`), which covers all inputs the repository handles.
-/

namespace GithubCrawler

/-- Runtime errors relevant to the crawler.  `typeError` is what Python
raises when subscripting `None` (`'NoneType' object is not subscriptable`),
`indexError` what `list[i]` or `random.choice([])` raise, `keyError` what a
missing dict/attribute subscript raises.  `missingField` is the dedicated
structured error named by the design document; no code in the repository
ever constructs it, it is included only so that statements can compare the
actual error against it. -/
inductive PyErr where
  | typeError
  | keyError
  | indexError
  | missingField
deriving Repr, DecidableEq

/-- Document node of a parsed HTML page, mirroring the `BeautifulSoup` tree:
an element has a tag name, an attribute list and children; leaves are text. -/
inductive Node where
  | text (s : String)
  | elem (tag : String) (attrs : List (String × String)) (children : List Node)

/-- Attribute access `element[key]` resolved to `Option`: the first attribute
entry with the given name, `none` when absent (Python raises `KeyError`). -/
def attrVal : Node → String → Option String
  | .text _, _ => none
  | .elem _ attrs _, key => (attrs.find? (fun kv => kv.1 == key)).map (fun kv => kv.2)

/-- Space-separated words of a string, as Python's `str.split()` used by
BeautifulSoup to interpret the multi-valued `class` attribute. -/
def splitWordsAux : List Char → List Char → List String
  | [], acc => if acc.isEmpty then [] else [String.mk acc.reverse]
  | c :: cs, acc =>
    if c = ' ' then
      if acc.isEmpty then splitWordsAux cs []
      else String.mk acc.reverse :: splitWordsAux cs []
    else splitWordsAux cs (c :: acc)

/-- Words of the `class` attribute value. -/
def splitWords (s : String) : List String := splitWordsAux s.data []

/-- Class list of a node: the words of its `class` attribute. -/
def classList (n : Node) : List String :=
  splitWords ((attrVal n "class").getD "")

/-- Matches the language-breakdown marker of the CSS select
`.d-inline-flex.flex-items-center`: an element carrying both classes. -/
def isLangMarker (n : Node) : Bool :=
  (classList n).contains "d-inline-flex" && (classList n).contains "flex-items-center"

/-- Matches the tag select `span`. -/
def isSpan : Node → Bool
  | .elem tag _ _ => tag == "span"
  | .text _ => false

/-- Matches the attribute select `[name='octolytics-dimension-user_login']`. -/
def isOwnerMarker (n : Node) : Bool :=
  attrVal n "name" == some "octolytics-dimension-user_login"

mutual
/-- Descendants of a node in document order (excluding the node itself),
the search space of BeautifulSoup's `select` / `select_one`. -/
def nodeDescendants : Node → List Node
  | .text _ => []
  | .elem _ _ cs => listDescendants cs
/-- Document-order flattening of a forest: each root followed by its
descendants. -/
def listDescendants : List Node → List Node
  | [] => []
  | c :: cs => c :: nodeDescendants c ++ listDescendants cs
end

mutual
/-- Concatenated text of a node, as BeautifulSoup's `.text`. -/
def nodeText : Node → String
  | .text s => s
  | .elem _ _ cs => listText cs
/-- Concatenated text of a forest. -/
def listText : List Node → String
  | [] => ""
  | c :: cs => nodeText c ++ listText cs
end

/-- Embedding of `soup.select('.d-inline-flex.flex-items-center')`. -/
def selectMarkers (soup : Node) : List Node :=
  (nodeDescendants soup).filter isLangMarker

/-- Embedding of `item.select('span')`. -/
def selectSpans (item : Node) : List Node :=
  (nodeDescendants item).filter isSpan

/-- Python dict assignment `d[k] = v` on an insertion-ordered association
list: an existing key keeps its position and gets the new value, a new key
is appended at the end. -/
def pyDictInsert (d : List (String × String)) (k v : String) : List (String × String) :=
  if d.any (fun kv => kv.1 == k) then d.map (fun kv => if kv.1 == k then (k, v) else kv)
  else d ++ [(k, v)]

/-- Loop body of `extract_language_statistics` (`utils.py` lines 30-34 and
`parser.py` lines 41-45): for each marker element take its first two `span`
descendants; a marker with fewer than two spans raises `IndexError`
(`language_stats[0]` / `language_stats[1]`). -/
def langStatsLoop : List Node → List (String × String) → Except PyErr (List (String × String))
  | [], acc => .ok acc
  | item :: rest, acc =>
    match (selectSpans item)[0]? with
    | none => .error .indexError
    | some s0 =>
      match (selectSpans item)[1]? with
      | none => .error .indexError
      | some s1 => langStatsLoop rest (pyDictInsert acc (nodeText s0) (nodeText s1))

/-- Embedding of `extract_language_statistics` (identical in
`src/parser/utils.py` and `parser.py`): builds the language-name →
percentage dict over all marker elements in document order. -/
def extract_language_statistics (soup : Node) : Except PyErr (List (String × String)) :=
  langStatsLoop (selectMarkers soup) []

/-- Embedding of `extract_repository_owner`
(`soup.select_one('[name=octolytics-dimension-user_login]')['content']`):
when no element matches, `select_one` yields `None` and the subscript raises
`TypeError`; otherwise the `content` attribute of the first match is
returned (`KeyError` if that attribute is missing). -/
def extract_repository_owner (soup : Node) : Except PyErr String :=
  match (nodeDescendants soup).find? isOwnerMarker with
  | none => .error .typeError
  | some e =>
    match attrVal e "content" with
    | none => .error .keyError
    | some v => .ok v

/-- Name/percentage pair read from one well-formed marker element (its
first two span descendants). -/
def markerPair (item : Node) : Option (String × String) :=
  match (selectSpans item)[0]?, (selectSpans item)[1]? with
  | some s0, some s1 => some (nodeText s0, nodeText s1)
  | _, _ => none

/-- Name/percentage pairs of the well-formed marker elements of a document,
in document order; vocabulary for stating what the extraction returns. -/
def markerPairs (soup : Node) : List (String × String) :=
  (selectMarkers soup).filterMap markerPair

/-- Span element with a single text child, as in the repository's test pages. -/
def spanNode (s : String) : Node := .elem "span" [] [.text s]

/-- Language marker element of GitHub's layout: a div with the two marker
classes containing a language-name span and a percentage span. -/
def markerNode (lang pct : String) : Node :=
  .elem "div" [("class", "d-inline-flex flex-items-center")] [spanNode lang, spanNode pct]

/-- Owner marker element of GitHub's layout: the octolytics meta tag. -/
def ownerMeta (login : String) : Node :=
  .elem "meta" [("name", "octolytics-dimension-user_login"), ("content", login)] []

/-- Detail page shaped like the repository's test fixtures: one owner marker
and two language markers. -/
def sampleDoc : Node :=
  .elem "html" [] [ownerMeta "testuser", markerNode "Python" "50%", markerNode "JavaScript" "30%"]

/-- Detail page without any owner marker. -/
def noMarkerDoc : Node := .elem "html" [] [.text "plain"]

/-- Detail page with a duplicated language name: the later marker must win. -/
def dupDoc : Node :=
  .elem "html" [] [markerNode "Python" "50%", markerNode "Go" "30%", markerNode "Python" "20%"]

/-- Detail page with a malformed language marker carrying a single span. -/
def badMarkerDoc : Node :=
  .elem "html" [] [.elem "div" [("class", "d-inline-flex flex-items-center")] [spanNode "Python"]]

/-- Outcome of one `client.get` call, as produced by the injected network
oracle: a successful response body (HTTP error statuses included — the code
passes them through), or a connection-level failure
(`ConnectTimeout` / `ConnectError`). -/
inductive AttemptResult where
  | ok (doc : String)
  | connErr
deriving Repr, DecidableEq

/-- Diagnostic record of one attempt: its index (the `retry` counter) and
the proxy handed to `AsyncClient` (`none` = direct connection). -/
structure Attempt where
  idx : Nat
  proxy : Option String
deriving Repr, DecidableEq

/-- Exit of one call to `GitHubCrawler.fetch_url_content`: the function
returns a response, returns Python's `None`, or an `IndexError` escapes
from `random.choice([])`. -/
inductive FetchOutcome where
  | ok (doc : String)
  | retNone
  | indexError
deriving Repr, DecidableEq

/-- Body of `GitHubCrawler.fetch_url_content` (`parser.py` lines 47-69) at a
given `retry` value, paired with the list of attempts actually performed by
this invocation and its recursive calls.  Faithful control flow:
`proxy = f'http://{choice(proxies)}' if retry else None` runs first and
raises `IndexError` on an empty pool for `retry ≥ 1`; under `retry < 5` the
`client.get` outcome is consulted, a connection failure triggers
`await self.fetch_url_content(url, headers, retry+1)` WITHOUT `return`, so
the recursive result is discarded and the invocation falls through to
return `None` (exceptions from the recursive call still propagate); at
`retry = 5` the function only logs and returns `None`.  The `retry < 5`
guard bounds the recursion depth by 6 invocations from `retry = 0`, so the
structural `fuel` argument with `fuel = 6` at top level realises exactly
the Python recursion (`fetchFromFuel_fuel_free` below shows the fuel is
inessential). -/
def fetchFromFuel (proxies : List String) (choiceFn : List String → String)
    (oracle : Nat → AttemptResult) : Nat → Nat → FetchOutcome × List Attempt
  | 0, _ => (.retNone, [])
  | fuel + 1, retry =>
    if retry ≠ 0 ∧ proxies = [] then (.indexError, [])
    else
      let proxy : Option String :=
        if retry ≠ 0 then some ("http://" ++ choiceFn proxies) else none
      if retry < 5 then
        match oracle retry with
        | .ok doc => (.ok doc, [⟨retry, proxy⟩])
        | .connErr =>
          let r := fetchFromFuel proxies choiceFn oracle fuel (retry + 1)
          match r.1 with
          | .indexError => (.indexError, ⟨retry, proxy⟩ :: r.2)
          | _ => (.retNone, ⟨retry, proxy⟩ :: r.2)
      else (.retNone, [])

/-- Embedding of a top-level call `GitHubCrawler.fetch_url_content(url,
headers)` (default `retry = 0`).  The URL and headers only parametrise the
oracle, so they are left implicit in it. -/
def fetch_url_content (proxies : List String) (choiceFn : List String → String)
    (oracle : Nat → AttemptResult) : FetchOutcome × List Attempt :=
  fetchFromFuel proxies choiceFn oracle 6 0

/-- Embedding of `get_proxy` (`src/parser/utils.py` lines 7-19): a falsy
proxy list (absent or empty, both modelled by `[]`) yields `None`,
otherwise `http://` plus a random choice from the pool. -/
def get_proxy (proxies : List String) (choiceFn : List String → String) : Option String :=
  if proxies.isEmpty then none else some ("http://" ++ choiceFn proxies)

/-- Body of `Parser.fetch_url_content` (`src/parser/parser.py` lines 32-50):
same shape as the `GitHubCrawler` variant but `get_proxy` runs on EVERY
attempt (including the first) and there is no retry bound — the recursion
is unbounded, so the embedding is fuelled and `none` means the call has not
terminated within `fuel` attempts.  The recursive result is again discarded
(missing `return`), hence `.retNone` after any retry. -/
def parserFetchFuel (proxies : List String) (choiceFn : List String → String)
    (oracle : Nat → AttemptResult) : Nat → Nat → Option (FetchOutcome × List Attempt)
  | 0, _ => none
  | fuel + 1, idx =>
    let proxy : Option String := get_proxy proxies choiceFn
    match oracle idx with
    | .ok doc => some (.ok doc, [⟨idx, proxy⟩])
    | .connErr =>
      match parserFetchFuel proxies choiceFn oracle fuel (idx + 1) with
      | none => none
      | some r => some (.retNone, ⟨idx, proxy⟩ :: r.2)

/-- Concatenation of the images of a list, the spine of the byte-level
string encoders below. -/
def concatMap (f : α → List β) : List α → List β
  | [] => []
  | a :: as => f a ++ concatMap f as

/-- Uppercase hexadecimal digit of a nibble, as CPython's `'%{:02X}'`
quoter table. -/
def hexDigit : Nat → Char
  | 0 => '0' | 1 => '1' | 2 => '2' | 3 => '3' | 4 => '4'
  | 5 => '5' | 6 => '6' | 7 => '7' | 8 => '8' | 9 => '9'
  | 10 => 'A' | 11 => 'B' | 12 => 'C' | 13 => 'D' | 14 => 'E'
  | _ => 'F'

/-- Bytes never quoted by `urllib.parse.quote`: ASCII letters, digits and
`_.-~`. -/
def isAlwaysSafe (b : Nat) : Bool :=
  (65 ≤ b && b ≤ 90) || (97 ≤ b && b ≤ 122) || (48 ≤ b && b ≤ 57) ||
    b == 95 || b == 46 || b == 45 || b == 126

/-- Percent-encoding `%XX` of one byte. -/
def pctEncode (b : Nat) : List Char := ['%', hexDigit (b / 16), hexDigit (b % 16)]

/-- Treatment of one byte by `urllib.parse.quote_plus(s, safe)`: a space
becomes `+`, a safe byte passes through, anything else is percent-encoded. -/
def quotePlusByte (safe : List Nat) (b : Nat) : List Char :=
  if b == 32 then ['+']
  else if isAlwaysSafe b || safe.contains b then [Char.ofNat b]
  else pctEncode b

/-- Embedding of `urllib.parse.quote_plus` with a `safe` byte set, at the
ASCII byte level (`Char.toNat`). -/
def quote_plus (safe : List Nat) (s : String) : String :=
  String.mk (concatMap (fun c => quotePlusByte safe c.toNat) s.data)

/-- Python's `sep.join(xs)`. -/
def pyJoin (sep : String) : List String → String
  | [] => ""
  | [x] => x
  | x :: xs => x ++ sep ++ pyJoin sep xs

/-- Python's `str.lower()` on the ASCII strings the crawler handles. -/
def pyLower (s : String) : String := String.mk (s.data.map Char.toLower)

/-- Embedding of `urllib.parse.urlencode(params, safe='+')`: `key=value`
pairs joined by `&`, keys and values quoted via `quote_plus` with the given
safe set (the default `quote_via`). -/
def urlencode (safe : List Nat) (params : List (String × String)) : String :=
  pyJoin "&" (params.map (fun kv => quote_plus safe kv.1 ++ "=" ++ quote_plus safe kv.2))

/-- Embedding of `build_search_url` (identical in `parser.py` lines 97-111
and `src/parser/parser.py` lines 72-86) at the configured base URL
`https://github.com/` (hard-coded in `run.py` and in `parser.py` `__main__`):
`urljoin('https://github.com/', 'search')` is `https://github.com/search`,
`urlparse`/`urlunparse` reassemble scheme, netloc and path and append the
`urlencode(params, safe='+')` query after `?`.  Note the composition: the
`q` value is ALREADY `quote_plus`-encoded before `urlencode` quotes it a
second time. -/
def build_search_url (keywords : List String) (ty : String) : String :=
  let url : String := "https://github.com/search"
  let params : List (String × String) :=
    [("q", quote_plus [] (pyJoin " " keywords)), ("type", pyLower ty)]
  url ++ "?" ++ urlencode [43] params

/-- Result buffer of `asyncio.gather`: the scheduled coroutines finish in
the arbitrary completion order `order`, and each task stores its result at
its own position `i`, independent of when it completes. -/
def gatherFill (f : Nat → String) (order : List Nat) : Nat → Option String :=
  order.foldl (fun acc i => Function.update acc i (some (f i))) (fun _ => none)

/-- Embedding of `await asyncio.gather(*coros)` over `n` tasks with result
function `f`: the positional read-out of the filled buffer. -/
def asyncio_gather (f : Nat → String) (n : Nat) (order : List Nat) : List (Option String) :=
  (List.range n).map (gatherFill f order)

/-- Embedding of `fetch_html_soups` (`parser.py` lines 113-123 and
`src/parser/parser.py` lines 88-98): one fetch coroutine per URL, gathered
concurrently (completion order `order`), then each response body parsed
(`BeautifulSoup(response.text, 'lxml')`, modelled by the abstract parser
`parse`).  `resp` gives the body fetched for a URL. -/
def fetch_html_soups (parse : String → Node) (resp : String → String)
    (urls : List String) (order : List Nat) : List Node :=
  (asyncio_gather (fun i => resp (urls.getD i "")) urls.length order).map
    (fun r => parse (r.getD ""))

/-- Optional `extra` payload of a Result Record. -/
structure Extra where
  owner : String
  language_stats : List (String × String)
deriving Repr, DecidableEq

/-- Result Record produced per detail page: the originating URL and, for
repository crawls, the extracted `extra` object. -/
structure ResultRecord where
  url : String
  extra : Option Extra
deriving Repr, DecidableEq

/-- Record construction step of `Parser.parse_github_data`
(`src/parser/parser.py` lines 52-70): the record carries its URL, and only
when the configured type is the exact string `repositories` is the `extra`
dict added (owner, then language stats, extraction exceptions escaping). -/
def parseRecord (ty : String) (soup : Node) (url : String) : Except PyErr ResultRecord :=
  if ty == "repositories" then
    match extract_repository_owner soup with
    | .error e => .error e
    | .ok owner =>
      match extract_language_statistics soup with
      | .error e => .error e
      | .ok stats => .ok (ResultRecord.mk url (some ⟨owner, stats⟩))
  else .ok (ResultRecord.mk url none)

/-- Loop of `Parser.parse_github_data` over the zipped (document, URL)
pairs, building one record per pair with exceptions propagating. -/
def parse_github_data (ty : String) : List (Node × String) → Except PyErr (List ResultRecord)
  | [] => .ok []
  | p :: ps =>
    match parseRecord ty p.1 p.2 with
    | .error e => .error e
    | .ok r =>
      match parse_github_data ty ps with
      | .error e => .error e
      | .ok rs => .ok (r :: rs)

/-- Embedding of the loop of `GitHubCrawler.parse_repository_data`
(`parser.py` lines 75-95): unconditionally builds the `extra` dict for
every record — the entity type is never consulted. -/
def parse_repository_data : List (Node × String) → Except PyErr (List ResultRecord)
  | [] => .ok []
  | p :: ps =>
    match extract_repository_owner p.1 with
    | .error e => .error e
    | .ok owner =>
      match extract_language_statistics p.1 with
      | .error e => .error e
      | .ok stats =>
        match parse_repository_data ps with
        | .error e => .error e
        | .ok rs => .ok (ResultRecord.mk p.2 (some ⟨owner, stats⟩) :: rs)

/-! Helper lemmas. -/

/-- With an always-failing network, the packaged `Parser.fetch_url_content`
never terminates: no amount of fuel makes the unbounded recursion return. -/
lemma parserFetch_never_returns (proxies : List String) (choiceFn : List String → String)
    (oracle : Nat → AttemptResult) (hfail : ∀ i, oracle i = .connErr) :
    ∀ fuel idx, parserFetchFuel proxies choiceFn oracle fuel idx = none := by
  intro fuel
  induction fuel with
  | zero => intro idx; rfl
  | succ n ih => intro idx; simp [parserFetchFuel, hfail idx, ih (idx + 1)]

/-- Every attempt recorded by `GitHubCrawler.fetch_url_content` carries a
proxy determined by its index: `none` at index 0, `http://choice(proxies)`
at every later index, and a later index is only reached with a non-empty
pool. -/
lemma fetchFromFuel_trace (proxies : List String) (choiceFn : List String → String)
    (oracle : Nat → AttemptResult) :
    ∀ fuel retry, ∀ a ∈ (fetchFromFuel proxies choiceFn oracle fuel retry).2,
      a.proxy = (if a.idx = 0 then none else some ("http://" ++ choiceFn proxies))
      ∧ (a.idx ≠ 0 → proxies ≠ []) := by
  intro fuel
  induction fuel with
  | zero => intro retry a ha; simp [fetchFromFuel] at ha
  | succ n ih =>
    intro retry a ha
    by_cases hg : retry ≠ 0 ∧ proxies = []
    · simp [fetchFromFuel, hg] at ha
    · by_cases h5 : retry < 5
      · have head : ∀ h : a = Attempt.mk retry
            (if retry ≠ 0 then some ("http://" ++ choiceFn proxies) else none),
            a.proxy = (if a.idx = 0 then none else some ("http://" ++ choiceFn proxies))
            ∧ (a.idx ≠ 0 → proxies ≠ []) := by
          intro h
          subst h
          by_cases h0 : retry = 0
          · simp [h0]
          · exact ⟨by simp [h0], fun _ he => hg ⟨h0, he⟩⟩
        cases ho : oracle retry with
        | ok d =>
          simp [fetchFromFuel, hg, h5, ho] at ha
          exact head (by cases a; simpa using ha)
        | connErr =>
          rcases hr : fetchFromFuel proxies choiceFn oracle n (retry + 1) with ⟨out, tr⟩
          have htr : a ∈ Attempt.mk retry
              (if retry ≠ 0 then some ("http://" ++ choiceFn proxies) else none) :: tr := by
            cases out <;> simpa [fetchFromFuel, hg, h5, ho, hr] using ha
          rcases List.mem_cons.mp htr with h | h
          · exact head h
          · have := ih (retry + 1) a
            rw [hr] at this
            exact this h
      · simp [fetchFromFuel, hg, h5] at ha

/-- Every attempt recorded by `Parser.fetch_url_content` (any index,
including the first) carries the proxy computed by `get_proxy`. -/
lemma parserFetchFuel_trace (proxies : List String) (choiceFn : List String → String)
    (oracle : Nat → AttemptResult) :
    ∀ fuel idx r, parserFetchFuel proxies choiceFn oracle fuel idx = some r →
      ∀ a ∈ r.2, a.proxy = get_proxy proxies choiceFn := by
  intro fuel
  induction fuel with
  | zero => intro idx r h; simp [parserFetchFuel] at h
  | succ n ih =>
    intro idx r h a ha
    cases ho : oracle idx with
    | ok d =>
      simp [parserFetchFuel, ho] at h
      rw [← h] at ha
      simp at ha
      rw [ha]
    | connErr =>
      cases hrec : parserFetchFuel proxies choiceFn oracle n (idx + 1) with
      | none => simp [parserFetchFuel, ho, hrec] at h
      | some r2 =>
        simp [parserFetchFuel, ho, hrec] at h
        rw [← h] at ha
        rcases List.mem_cons.mp ha with h1 | h1
        · rw [h1]
        · exact ih (idx + 1) r2 hrec a h1

/-- Positional fill of the gather buffer: a slot whose index completed
holds that task's result, untouched slots keep the initial value. -/
lemma gatherFill_foldl (f : Nat → String) (order : List Nat)
    (init : Nat → Option String) (j : Nat) :
    order.foldl (fun acc i => Function.update acc i (some (f i))) init j
      = if j ∈ order then some (f j) else init j := by
  induction order generalizing init with
  | nil => simp
  | cons i rest ih =>
    simp only [List.foldl_cons, ih, List.mem_cons]
    by_cases hj : j ∈ rest
    · simp [hj]
    · by_cases hij : j = i
      · subst hij
        simp [hj, Function.update_apply]
      · simp [hj, hij, Function.update_apply]

/-- Reading a list through `getD` along `range` is the list itself. -/
lemma map_range_getD (g : String → Node) (l : List String) :
    (List.range l.length).map (fun i => g (l.getD i "")) = l.map g := by
  induction l with
  | nil => rfl
  | cons x xs ih =>
    simp only [List.length_cons, List.range_succ_eq_map, List.map_cons, List.map_map,
      Function.comp_def, List.getD_cons_zero, List.getD_cons_succ]
    rw [ih]

/-! Claim theorems. -/

/-- C1 (corrected).  With a non-empty proxy pool and every attempt failing
at the connection level, `GitHubCrawler.fetch_url_content` performs exactly
5 attempts (indices 0 to 4), no more, and then RETURNS Python's `None` —
the connection errors are swallowed, no `FetchExhausted`-style error is
raised (no such error exists in the code; the exhaustion branch only logs).
The packaged `Parser.fetch_url_content` variant has no attempt bound at
all: under the same always-failing network it never returns. -/
theorem fetch_exhausted_returns_none (proxies : List String)
    (choiceFn : List String → String) (oracle : Nat → AttemptResult)
    (hp : proxies ≠ []) (hfail : ∀ i, oracle i = .connErr) :
    (fetch_url_content proxies choiceFn oracle).1 = .retNone
    ∧ (fetch_url_content proxies choiceFn oracle).2.map Attempt.idx = [0, 1, 2, 3, 4]
    ∧ (∀ fuel, parserFetchFuel proxies choiceFn oracle fuel 0 = none) := by
  refine ⟨?_, ?_, fun fuel => parserFetch_never_returns proxies choiceFn oracle hfail fuel 0⟩ <;>
    simp [fetch_url_content, fetchFromFuel, hfail, hp]

/-- Witness for C1's theorem at the pool `["p"]` and the always-failing
network. -/
theorem fetch_exhausted_returns_none_witness :
    (["p"] : List String) ≠ []
    ∧ (fetch_url_content ["p"] (fun l => l.headD "") (fun _ => .connErr)).1 = .retNone
    ∧ (fetch_url_content ["p"] (fun l => l.headD "") (fun _ => .connErr)).2.map Attempt.idx
        = [0, 1, 2, 3, 4]
    ∧ parserFetchFuel ["p"] (fun l => l.headD "") (fun _ => .connErr) 9 0 = none := by
  have h := fetch_exhausted_returns_none ["p"] (fun l => l.headD "") (fun _ => .connErr)
    (by decide) (fun _ => rfl)
  exact ⟨by decide, h.1, h.2.1, h.2.2 9⟩

/-- C1 counterexample.  At pool `["p"]` with every connection failing, the
call makes exactly 5 attempts and then RETURNS the non-error value `None`
(`.retNone` models the Python function returning `None`): the claim's
"fails with FetchExhausted rather than … returning a non-error value" is
false on the code. -/
theorem fetch_exhausts_to_none_cex :
    (fetch_url_content ["p"] (fun l => l.headD "") (fun _ => .connErr)).1 = .retNone
    ∧ (fetch_url_content ["p"] (fun l => l.headD "") (fun _ => .connErr)).2.length = 5 := by
  decide

/-- C2 (code bug).  Failing input: pool `["p"]`, attempt 0 fails at the
connection level, attempt 1 succeeds with a document (`K = 1 < 5`).  The
code performs the promised `K+1 = 2` attempts but the missing `return`
before `await self.fetch_url_content(...)` discards the successful
response: the call returns `None` instead of the document, contradicting
its own docstring ("Returns: Response … containing the fetched content")
and the claim.  For `K = 0` (second conjunct) the document is returned, as
only the un-retried path has a `return`. -/
theorem fetch_retry_discards_response :
    (fetch_url_content ["p"] (fun l => l.headD "")
        (fun i => if i = 0 then .connErr else .ok "doc"))
      = (.retNone, [⟨0, none⟩, ⟨1, some "http://p"⟩])
    ∧ (fetch_url_content ["p"] (fun l => l.headD "") (fun _ => .ok "doc"))
      = (.ok "doc", [⟨0, none⟩]) := by
  decide

/-- C9 (confirmed).  With an empty proxy pool, any invocation at retry
index ≥ 1 raises `IndexError` from `random.choice([])` before making a
request; hence a top-level fetch whose first attempt fails at the
connection level crashes with `IndexError` after that single attempt —
neither a direct un-proxied retry nor an exhaustion report happens. -/
theorem empty_proxy_pool_index_error (choiceFn : List String → String)
    (oracle : Nat → AttemptResult) (h0 : oracle 0 = .connErr) :
    fetch_url_content [] choiceFn oracle = (.indexError, [⟨0, none⟩])
    ∧ (∀ fuel retry, retry ≠ 0 →
        fetchFromFuel [] choiceFn oracle (fuel + 1) retry = (.indexError, [])) := by
  constructor
  · simp [fetch_url_content, fetchFromFuel, h0]
  · intro fuel retry hr
    simp [fetchFromFuel, hr]

/-- Witness for C9's theorem with an always-failing network. -/
theorem empty_proxy_pool_index_error_witness :
    fetch_url_content [] (fun l => l.headD "") (fun _ => .connErr) = (.indexError, [⟨0, none⟩])
    ∧ fetchFromFuel [] (fun l => l.headD "") (fun _ => .connErr) 1 1 = (.indexError, []) := by
  have h := empty_proxy_pool_index_error (fun l => l.headD "") (fun _ => .connErr) rfl
  exact ⟨h.1, h.2 0 1 (by decide)⟩

/-- C3 (corrected).  In `GitHubCrawler.fetch_url_content` attempt 0 is
always direct and every attempt at index ≥ 1 uses `http://` plus an element
drawn from the proxy pool by the random choice (modelled by any selector
that picks an element of its argument).  The packaged
`Parser.fetch_url_content`, however, computes `get_proxy` on EVERY attempt
— including attempt 0 — so with a non-empty pool the first attempt is
proxied too. -/
theorem fetch_proxy_selection (proxies : List String) (choiceFn : List String → String)
    (oracle : Nat → AttemptResult) (hc : ∀ l : List String, l ≠ [] → choiceFn l ∈ l) :
    (∀ a ∈ (fetch_url_content proxies choiceFn oracle).2,
        (a.idx = 0 → a.proxy = none)
        ∧ (a.idx ≠ 0 → ∃ p ∈ proxies, a.proxy = some ("http://" ++ p)))
    ∧ (∀ fuel idx r, parserFetchFuel proxies choiceFn oracle fuel idx = some r →
        ∀ a ∈ r.2, a.proxy = get_proxy proxies choiceFn) := by
  constructor
  · intro a ha
    have h := fetchFromFuel_trace proxies choiceFn oracle 6 0 a ha
    constructor
    · intro h0; rw [h.1, if_pos h0]
    · intro h0
      exact ⟨choiceFn proxies, hc proxies (h.2 h0), by rw [h.1, if_neg h0]⟩
  · exact parserFetchFuel_trace proxies choiceFn oracle

/-- Witness for C3's theorem at pool `["p1"]` with the head selector. -/
theorem fetch_proxy_selection_witness :
    (∀ a ∈ (fetch_url_content ["p1"] (fun l => l.headD "") (fun _ => .connErr)).2,
        (a.idx = 0 → a.proxy = none)
        ∧ (a.idx ≠ 0 → ∃ p ∈ (["p1"] : List String), a.proxy = some ("http://" ++ p)))
    ∧ (∀ fuel idx r, parserFetchFuel ["p1"] (fun l => l.headD "") (fun _ => .connErr) fuel idx
          = some r → ∀ a ∈ r.2, a.proxy = get_proxy ["p1"] (fun l => l.headD "")) :=
  fetch_proxy_selection ["p1"] (fun l => l.headD "") (fun _ => .connErr)
    (fun l hl => by cases l with
      | nil => exact absurd rfl hl
      | cons x xs => simp)

/-- C3 counterexample.  A successful single-attempt fetch through the
packaged `Parser.fetch_url_content` with pool `["p"]`: attempt 0 — the
first attempt — already carries the proxy `http://p`, so "attempt 0 is made
over a direct connection with no proxy" fails on this variant. -/
theorem parser_first_attempt_uses_proxy_cex :
    parserFetchFuel ["p"] (fun l => l.headD "") (fun _ => .ok "d") 1 0
      = some (.ok "d", [⟨0, some "http://p"⟩])
    ∧ (some "http://p" : Option String) ≠ none := by
  decide

/-- C4 (confirmed).  For any completion order of the concurrently gathered
requests (any permutation of the task indices), `fetch_html_soups` returns
exactly one parsed document per input URL, in input order: the result is
`urls.map (parse ∘ resp)` independently of `order`. -/
theorem fetch_html_soups_ordered (parse : String → Node) (resp : String → String)
    (urls : List String) (order : List Nat)
    (hperm : order.Perm (List.range urls.length)) :
    fetch_html_soups parse resp urls order = urls.map (fun u => parse (resp u)) := by
  unfold fetch_html_soups asyncio_gather
  rw [List.map_map]
  have hfill : ∀ j < urls.length, gatherFill (fun i => resp (urls.getD i "")) order j
      = some (resp (urls.getD j "")) := by
    intro j hj
    unfold gatherFill
    rw [gatherFill_foldl]
    rw [if_pos (hperm.mem_iff.mpr (List.mem_range.mpr hj))]
  have hmap : (List.range urls.length).map
        ((fun r => parse (r.getD "")) ∘ gatherFill (fun i => resp (urls.getD i "")) order)
      = (List.range urls.length).map (fun j => parse (resp (urls.getD j ""))) := by
    apply List.map_congr_left
    intro j hj
    show parse ((gatherFill (fun i => resp (urls.getD i "")) order j).getD "") = _
    rw [hfill j (List.mem_range.mp hj)]
    rfl
  rw [hmap]
  exact map_range_getD (fun u => parse (resp u)) urls

/-- Witness for C4's theorem: two URLs whose requests complete in reversed
order still produce documents in input order. -/
theorem fetch_html_soups_ordered_witness :
    ([1, 0] : List Nat).Perm (List.range 2)
    ∧ fetch_html_soups Node.text (fun u => u ++ "!") ["u1", "u2"] [1, 0]
      = [Node.text "u1!", Node.text "u2!"] := by
  have hp : ([1, 0] : List Nat).Perm (List.range 2) := by decide
  exact ⟨hp, (fetch_html_soups_ordered Node.text (fun u => u ++ "!") ["u1", "u2"] [1, 0]
    hp).trans rfl⟩

/-- First match of a predicate is the head of the filtered list. -/
lemma find?_eq_head_filter (p : Node → Bool) (l : List Node) :
    l.find? p = (l.filter p).head? := by
  induction l with
  | nil => rfl
  | cons x xs ih =>
    by_cases hx : p x
    · rw [List.find?_cons_of_pos _ hx, List.filter_cons_of_pos hx]; rfl
    · rw [List.find?_cons_of_neg _ hx, List.filter_cons_of_neg hx, ih]

/-- C6 (corrected).  On a document with no owner marker element,
`extract_repository_owner` fails with a `TypeError` (subscripting the
`None` returned by `select_one`) — not with a dedicated `MissingField`
error, which does not exist in the code; on a document whose marker
elements are exactly one element `e`, it returns `e`'s `content` attribute
(the login-identity value) verbatim. -/
theorem extract_owner_spec (soup : Node) :
    ((∀ n ∈ nodeDescendants soup, isOwnerMarker n = false) →
      extract_repository_owner soup = .error .typeError)
    ∧ (∀ e v, (nodeDescendants soup).filter isOwnerMarker = [e] →
        attrVal e "content" = some v →
        extract_repository_owner soup = .ok v) := by
  constructor
  · intro h
    have hf : (nodeDescendants soup).find? isOwnerMarker = none :=
      List.find?_eq_none.mpr (fun x hx => by simp [h x hx])
    unfold extract_repository_owner
    rw [hf]
  · intro e v hfilter hattr
    have hf : (nodeDescendants soup).find? isOwnerMarker = some e := by
      rw [find?_eq_head_filter, hfilter]; rfl
    unfold extract_repository_owner
    rw [hf]
    show (match attrVal e "content" with
      | none => Except.error PyErr.keyError
      | some w => Except.ok w) = Except.ok v
    rw [hattr]

/-- Witness for C6's theorem: the empty page fails with `TypeError`, the
fixture page with its single marker returns the login verbatim. -/
theorem extract_owner_spec_witness :
    extract_repository_owner noMarkerDoc = .error .typeError
    ∧ extract_repository_owner sampleDoc = .ok "testuser" :=
  ⟨(extract_owner_spec noMarkerDoc).1 (by decide),
   (extract_owner_spec sampleDoc).2 (ownerMeta "testuser") "testuser" rfl rfl⟩

/-- C6 counterexample.  The marker-less page makes the code fail with the
generic `TypeError` of subscripting `None`, which is not the dedicated
`MissingField` error the claim names. -/
theorem extract_owner_type_error_cex :
    extract_repository_owner noMarkerDoc = .error .typeError
    ∧ PyErr.typeError ≠ PyErr.missingField :=
  ⟨rfl, by decide⟩

/-- Record built by `Parser.parse_github_data` determines its `extra`
presence by the exact string comparison `type == 'repositories'`. -/
lemma parseRecord_ok (ty : String) (soup : Node) (url : String) (r : ResultRecord)
    (h : parseRecord ty soup url = .ok r) :
    r.url = url ∧ r.extra.isSome = (ty == "repositories") := by
  unfold parseRecord at h
  by_cases hty : ty == "repositories"
  · rw [if_pos hty] at h
    cases ho : extract_repository_owner soup with
    | error e => rw [ho] at h; cases h
    | ok owner =>
      cases hs : extract_language_statistics soup with
      | error e => rw [ho, hs] at h; cases h
      | ok stats =>
        rw [ho, hs] at h
        injection h with h2
        subst h2
        simp [hty]
  · rw [if_neg hty] at h
    injection h with h2
    subst h2
    simp [hty]

/-- C7 (corrected, for the packaged `Parser`).  Whenever
`Parser.parse_github_data` succeeds, every produced Result Record carries
`extra` exactly when the configured entity type is the string
`repositories` (for `issues` and `wikis` the record holds only its URL),
and the records' URLs are the input URLs in order.  The legacy
`GitHubCrawler.parse_repository_data` violates the claim: it never
consults the entity type (see the counterexample). -/
theorem parse_github_data_extra_iff (ty : String) (pairs : List (Node × String))
    (res : List ResultRecord) (h : parse_github_data ty pairs = .ok res) :
    (∀ r ∈ res, r.extra.isSome = (ty == "repositories"))
    ∧ res.map ResultRecord.url = pairs.map Prod.snd := by
  induction pairs generalizing res with
  | nil =>
    simp only [parse_github_data, Except.ok.injEq] at h
    subst h
    simp
  | cons p ps ih =>
    cases hr : parseRecord ty p.1 p.2 with
    | error e => simp only [parse_github_data] at h; rw [hr] at h; cases h
    | ok r =>
      cases hrest : parse_github_data ty ps with
      | error e => simp only [parse_github_data] at h; rw [hr, hrest] at h; cases h
      | ok rs =>
        simp only [parse_github_data] at h
        rw [hr, hrest] at h
        injection h with h2
        subst h2
        have hrec := parseRecord_ok ty p.1 p.2 r hr
        have hihs := ih rs hrest
        constructor
        · intro x hx
          rcases List.mem_cons.mp hx with h1 | h1
          · subst h1; exact hrec.2
          · exact hihs.1 x h1
        · simp [hrec.1, hihs.2]

/-- Witness for C7's theorem: an `issues` crawl over the fixture page
yields a record with no `extra` and the originating URL. -/
theorem parse_github_data_extra_iff_witness :
    (ResultRecord.mk "u" none).extra.isSome = ("issues" == "repositories")
    ∧ [ResultRecord.mk "u" none].map ResultRecord.url = [(sampleDoc, "u")].map Prod.snd := by
  have h := parse_github_data_extra_iff "issues" [(sampleDoc, "u")] [ResultRecord.mk "u" none] rfl
  exact ⟨h.1 _ (List.mem_singleton.mpr rfl), h.2⟩

/-- C7 counterexample.  `GitHubCrawler.parse_repository_data` takes no
entity type at all and builds `extra` for every record, so a crawl with
entity type `issues` (or `wikis`) through the `parser.py` pipeline still
produces records whose `extra` is present — contradicting "for entity
types issues and wikis the record contains only the url field". -/
theorem parse_repository_data_always_extra_cex :
    parse_repository_data [(sampleDoc, "u")]
      = .ok [⟨"u", some ⟨"testuser", [("Python", "50%"), ("JavaScript", "30%")]⟩⟩]
    ∧ (some (Extra.mk "testuser" [("Python", "50%"), ("JavaScript", "30%")]) : Option Extra)
        ≠ none :=
  ⟨rfl, by decide⟩

/-- Association-list lookup on a cons cell. -/
lemma lookup_cons_eq (k : String) (kv : String × String) (l : List (String × String)) :
    List.lookup k (kv :: l) = if k == kv.1 then some kv.2 else List.lookup k l := by
  rcases kv with ⟨a, b⟩
  rw [List.lookup_cons]
  cases h : k == a <;> simp

/-- Association-list lookup over a concatenation: the left list wins. -/
lemma lookup_append (k : String) (l1 l2 : List (String × String)) :
    List.lookup k (l1 ++ l2) = (List.lookup k l1).or (List.lookup k l2) := by
  induction l1 with
  | nil => simp [Option.or]
  | cons kv rest ih =>
    rw [List.cons_append, lookup_cons_eq, lookup_cons_eq]
    by_cases hk : (k == kv.1) = true
    · rw [if_pos hk, if_pos hk]; rfl
    · rw [if_neg hk, if_neg hk, ih]

/-- Looking up the assigned key after the in-place value replacement of
`pyDictInsert` yields the new value (the key was present). -/
lemma lookup_replace_self (k v : String) (d : List (String × String))
    (h : d.any (fun kv => kv.1 == k) = true) :
    List.lookup k (d.map (fun kv => if kv.1 == k then (k, v) else kv)) = some v := by
  induction d with
  | nil => simp at h
  | cons kv rest ih =>
    by_cases hk : kv.1 = k
    · rw [List.map_cons, if_pos (by simp [hk]), lookup_cons_eq]
      simp
    · rw [List.map_cons, if_neg (by simp [hk]), lookup_cons_eq]
      rw [if_neg (by simp [Ne.symm hk])]
      apply ih
      simpa [hk] using h

/-- Looking up any other key is unaffected by the in-place replacement. -/
lemma lookup_replace_other (k v q : String) (d : List (String × String)) (hq : q ≠ k) :
    List.lookup q (d.map (fun kv => if kv.1 == k then (k, v) else kv)) = List.lookup q d := by
  induction d with
  | nil => rfl
  | cons kv rest ih =>
    by_cases hk : kv.1 = k
    · rw [List.map_cons, if_pos (by simp [hk]), lookup_cons_eq, lookup_cons_eq]
      rw [if_neg (by simp [hq]), if_neg (by simp [hk, hq]), ih]
    · rw [List.map_cons, if_neg (by simp [hk]), lookup_cons_eq, lookup_cons_eq, ih]

/-- Keys without an entry never resolve. -/
lemma lookup_none_of_no_key (k : String) (d : List (String × String))
    (h : ∀ kv ∈ d, kv.1 ≠ k) : List.lookup k d = none := by
  induction d with
  | nil => rfl
  | cons kv rest ih =>
    rw [lookup_cons_eq, if_neg (by simp [Ne.symm (h kv (List.mem_cons_self kv rest))])]
    exact ih (fun x hx => h x (List.mem_cons_of_mem kv hx))

/-- Lookup after a Python dict assignment: the assigned key resolves to the
new value, every other key is untouched. -/
lemma lookup_pyDictInsert (d : List (String × String)) (k v q : String) :
    List.lookup q (pyDictInsert d k v) = if q = k then some v else List.lookup q d := by
  unfold pyDictInsert
  by_cases hany : d.any (fun kv => kv.1 == k) = true
  · rw [if_pos hany]
    by_cases hq : q = k
    · rw [if_pos hq]; subst hq; exact lookup_replace_self q v d hany
    · rw [if_neg hq]; exact lookup_replace_other k v q d hq
  · rw [if_neg hany, lookup_append, lookup_cons_eq]
    have hno : ∀ kv ∈ d, kv.1 ≠ k := fun kv hkv he =>
      hany (List.any_eq_true.mpr ⟨kv, hkv, by simp [he]⟩)
    by_cases hq : q = k
    · subst hq
      rw [if_pos rfl, if_pos (by simp), lookup_none_of_no_key q d hno]
      rfl
    · rw [if_neg hq, if_neg (by simp [hq])]
      cases List.lookup q d <;> rfl


/-- Presence of a key in the dict as an `any` scan. -/
lemma any_key_iff (d : List (String × String)) (k : String) :
    d.any (fun kv => kv.1 == k) = true ↔ k ∈ d.map Prod.fst := by
  rw [List.any_eq_true]
  constructor
  · rintro ⟨kv, hkv, he⟩
    have he2 : kv.1 = k := by simpa using he
    exact he2 ▸ List.mem_map_of_mem Prod.fst hkv
  · intro hk
    rcases List.mem_map.mp hk with ⟨kv, hkv, he⟩
    exact ⟨kv, hkv, by simp [he]⟩

/-- Keys after a Python dict assignment: unchanged for a present key,
appended for a new one. -/
lemma keys_pyDictInsert (d : List (String × String)) (k v : String) :
    (pyDictInsert d k v).map Prod.fst
      = if d.any (fun kv => kv.1 == k) = true then d.map Prod.fst
        else d.map Prod.fst ++ [k] := by
  unfold pyDictInsert
  by_cases hany : d.any (fun kv => kv.1 == k) = true
  · rw [if_pos hany, if_pos hany, List.map_map]
    apply List.map_congr_left
    intro kv _
    by_cases hk : kv.1 = k
    · simp [Function.comp_def, hk]
    · simp [Function.comp_def, hk]
  · rw [if_neg hany, if_neg hany]
    simp

/-- Key-uniqueness is preserved by Python dict assignment. -/
lemma nodup_keys_pyDictInsert (d : List (String × String)) (k v : String)
    (h : (d.map Prod.fst).Nodup) : ((pyDictInsert d k v).map Prod.fst).Nodup := by
  rw [keys_pyDictInsert]
  by_cases hany : d.any (fun kv => kv.1 == k) = true
  · rwa [if_pos hany]
  · rw [if_neg hany]
    have hk : k ∉ d.map Prod.fst := fun hmem => hany ((any_key_iff d k).mpr hmem)
    simp [List.nodup_append, h, hk]

/-- Key membership after a Python dict assignment. -/
lemma mem_keys_pyDictInsert (d : List (String × String)) (k v q : String) :
    q ∈ (pyDictInsert d k v).map Prod.fst ↔ q ∈ d.map Prod.fst ∨ q = k := by
  rw [keys_pyDictInsert]
  by_cases hany : d.any (fun kv => kv.1 == k) = true
  · rw [if_pos hany]
    constructor
    · exact Or.inl
    · rintro (h | h)
      · exact h
      · exact h ▸ (any_key_iff d k).mp hany
  · rw [if_neg hany]
    simp

/-- Lookup in the dict folded from a pair list: the LAST occurrence of a
key wins (first hit in the reversed pair list), keys absent from the pairs
fall back to the initial dict. -/
lemma lookup_dict_foldl (ps : List (String × String)) (acc : List (String × String))
    (q : String) :
    List.lookup q (ps.foldl (fun d kv => pyDictInsert d kv.1 kv.2) acc)
      = (List.lookup q ps.reverse).or (List.lookup q acc) := by
  induction ps generalizing acc with
  | nil => rfl
  | cons kv rest ih =>
    rw [List.foldl_cons, ih, List.reverse_cons, lookup_append, lookup_cons_eq,
      lookup_pyDictInsert]
    by_cases hq : q = kv.1
    · rw [if_pos hq, if_pos (by simp [hq])]
      cases List.lookup q rest.reverse <;> rfl
    · rw [if_neg hq, if_neg (by simp [hq])]
      cases List.lookup q rest.reverse <;> rfl

/-- Key-uniqueness of the dict folded from any pair list. -/
lemma nodup_keys_dict_foldl (ps : List (String × String)) (acc : List (String × String))
    (h : (acc.map Prod.fst).Nodup) :
    ((ps.foldl (fun d kv => pyDictInsert d kv.1 kv.2) acc).map Prod.fst).Nodup := by
  induction ps generalizing acc with
  | nil => exact h
  | cons kv rest ih => exact ih (pyDictInsert acc kv.1 kv.2) (nodup_keys_pyDictInsert _ _ _ h)

/-- Keys of the dict folded from a pair list: exactly the initial keys plus
the pair keys. -/
lemma mem_keys_dict_foldl (ps : List (String × String)) (acc : List (String × String))
    (q : String) :
    q ∈ (ps.foldl (fun d kv => pyDictInsert d kv.1 kv.2) acc).map Prod.fst
      ↔ q ∈ acc.map Prod.fst ∨ q ∈ ps.map Prod.fst := by
  induction ps generalizing acc with
  | nil => simp
  | cons kv rest ih =>
    rw [List.foldl_cons, ih, mem_keys_pyDictInsert]
    simp only [List.map_cons, List.mem_cons]
    tauto

/-- Under well-formed markers the extraction loop never fails and computes
the Python dict fold of the name/percentage pairs. -/
lemma langStatsLoop_eq_fold (items : List Node)
    (h : ∀ item ∈ items, 2 ≤ (selectSpans item).length) (acc : List (String × String)) :
    langStatsLoop items acc
      = .ok ((items.filterMap markerPair).foldl (fun d kv => pyDictInsert d kv.1 kv.2) acc) := by
  induction items generalizing acc with
  | nil => rfl
  | cons item rest ih =>
    have h2 := h item (List.mem_cons_self item rest)
    have h0 : 0 < (selectSpans item).length := by omega
    have h1 : 1 < (selectSpans item).length := by omega
    have hp : markerPair item
        = some (nodeText ((selectSpans item).get ⟨0, h0⟩),
            nodeText ((selectSpans item).get ⟨1, h1⟩)) := by
      unfold markerPair
      rw [List.getElem?_eq_getElem h0, List.getElem?_eq_getElem h1]
      rfl
    simp only [langStatsLoop]
    rw [List.getElem?_eq_getElem h0, List.getElem?_eq_getElem h1, List.filterMap_cons, hp,
      List.foldl_cons]
    exact ih (fun x hx => h x (List.mem_cons_of_mem item hx)) _

/-- A marker with fewer than two span descendants makes the extraction loop
raise `IndexError`. -/
lemma langStatsLoop_error_of_bad (items : List Node) (acc : List (String × String))
    (h : ∃ item ∈ items, (selectSpans item).length < 2) :
    langStatsLoop items acc = .error .indexError := by
  induction items generalizing acc with
  | nil => rcases h with ⟨item, hmem, _⟩; cases hmem
  | cons item rest ih =>
    by_cases hitem : (selectSpans item).length < 2
    · simp only [langStatsLoop]
      cases hsp : selectSpans item with
      | nil => rfl
      | cons s0 tl =>
        cases tl with
        | nil => rfl
        | cons s1 tl2 =>
          rw [hsp] at hitem
          exact absurd hitem (by simp only [List.length_cons]; omega)
    · rcases h with ⟨x, hx, hbad⟩
      rcases List.mem_cons.mp hx with h1 | h1
      · exact absurd (h1 ▸ hbad) hitem
      · have h0 : 0 < (selectSpans item).length := by omega
        have h1l : 1 < (selectSpans item).length := by omega
        simp only [langStatsLoop]
        rw [List.getElem?_eq_getElem h0, List.getElem?_eq_getElem h1l]
        exact ih _ ⟨x, h1, hbad⟩

/-- C10 (confirmed).  A document containing a language marker with fewer
than two span descendants makes `extract_language_statistics` raise
`IndexError` (the out-of-bounds `language_stats[0]` / `language_stats[1]`),
rather than skipping the marker, returning a partial mapping or reporting a
`MissingField`; the function succeeds exactly on documents whose every
marker has at least two span descendants. -/
theorem lang_stats_deficient_marker (soup : Node) :
    ((∃ item ∈ selectMarkers soup, (selectSpans item).length < 2) →
      extract_language_statistics soup = .error .indexError)
    ∧ ((∃ m, extract_language_statistics soup = .ok m) ↔
        ∀ item ∈ selectMarkers soup, 2 ≤ (selectSpans item).length) := by
  constructor
  · intro h
    exact langStatsLoop_error_of_bad _ _ h
  · constructor
    · rintro ⟨m, hm⟩
      by_contra hbad
      push_neg at hbad
      rcases hbad with ⟨item, hmem, hlt⟩
      rw [show extract_language_statistics soup = langStatsLoop (selectMarkers soup) []
          from rfl, langStatsLoop_error_of_bad _ _ ⟨item, hmem, hlt⟩] at hm
      cases hm
    · intro h
      exact ⟨_, langStatsLoop_eq_fold _ h _⟩

/-- Witness for C10's theorem: the fixture page whose only marker has a
single span makes the extraction raise `IndexError`. -/
theorem lang_stats_deficient_marker_witness :
    extract_language_statistics badMarkerDoc = .error .indexError :=
  (lang_stats_deficient_marker badMarkerDoc).1 (by decide)

/-- C8 (confirmed).  On a document whose markers are all well-formed,
`extract_language_statistics` succeeds with a mapping whose keys are
exactly the distinct language names occurring in the markers (no
duplicates), each resolving to the percentage of its LAST occurrence in
document order (first hit in the reversed pair list — later duplicates
overwrite earlier ones); with zero markers it returns the empty mapping
rather than failing. -/
theorem extract_language_statistics_spec (soup : Node)
    (h : ∀ item ∈ selectMarkers soup, 2 ≤ (selectSpans item).length) :
    ∃ m, extract_language_statistics soup = .ok m
      ∧ (∀ q, List.lookup q m = List.lookup q (markerPairs soup).reverse)
      ∧ (m.map Prod.fst).Nodup
      ∧ (∀ q, q ∈ m.map Prod.fst ↔ q ∈ (markerPairs soup).map Prod.fst)
      ∧ (selectMarkers soup = [] → m = []) := by
  refine ⟨(markerPairs soup).foldl (fun d kv => pyDictInsert d kv.1 kv.2) [],
    ?_, fun q => ?_, nodup_keys_dict_foldl _ _ (by simp),
    fun q => ?_, fun he => ?_⟩
  · show langStatsLoop (selectMarkers soup) [] = _
    exact langStatsLoop_eq_fold _ h _
  · rw [lookup_dict_foldl]
    cases List.lookup q (markerPairs soup).reverse <;> rfl
  · rw [mem_keys_dict_foldl]
    simp
  · unfold markerPairs
    rw [he]
    rfl

/-- Witness for C8's theorem on a page with a duplicated language name: the
duplicate keeps one key and resolves to the last percentage. -/
theorem extract_language_statistics_spec_witness :
    extract_language_statistics dupDoc = .ok [("Python", "20%"), ("Go", "30%")]
    ∧ List.lookup "Python" [("Python", "20%"), ("Go", "30%")]
        = List.lookup "Python" (markerPairs dupDoc).reverse := by
  have hc : extract_language_statistics dupDoc = .ok [("Python", "20%"), ("Go", "30%")] := rfl
  obtain ⟨m, hm, hlook, _⟩ := extract_language_statistics_spec dupDoc (by decide)
  have hme : m = [("Python", "20%"), ("Go", "30%")] := by
    rw [hc] at hm
    injection hm with h2
    exact h2.symm
  exact ⟨hc, hme ▸ hlook "Python"⟩

/-- Concatenation distributes over list append. -/
lemma concatMap_append (f : α → List β) (l1 l2 : List α) :
    concatMap f (l1 ++ l2) = concatMap f l1 ++ concatMap f l2 := by
  induction l1 with
  | nil => rfl
  | cons a as ih =>
    show f a ++ concatMap f (as ++ l2) = (f a ++ concatMap f as) ++ concatMap f l2
    rw [ih, List.append_assoc]

/-- Packing a concatenation of char lists. -/
lemma mk_append (l1 l2 : List Char) : String.mk (l1 ++ l2) = String.mk l1 ++ String.mk l2 := rfl

/-- Quoting distributes over string concatenation. -/
lemma quote_plus_append (safe : List Nat) (s t : String) :
    quote_plus safe (s ++ t) = quote_plus safe s ++ quote_plus safe t := by
  unfold quote_plus
  rw [String.data_append, concatMap_append, mk_append]

/-- Characters that are neither spaces nor quotable pass through `quote_plus`
unchanged. -/
lemma concatMap_quote_keep (safe : List Nat) (l : List Char)
    (h : ∀ c ∈ l, c.toNat ≠ 32 ∧ (isAlwaysSafe c.toNat || safe.contains c.toNat) = true) :
    concatMap (fun c => quotePlusByte safe c.toNat) l = l := by
  induction l with
  | nil => rfl
  | cons c cs ih =>
    have hc := h c (List.mem_cons_self c cs)
    show quotePlusByte safe c.toNat ++ concatMap (fun x => quotePlusByte safe x.toNat) cs
      = c :: cs
    rw [ih (fun x hx => h x (List.mem_cons_of_mem c hx))]
    unfold quotePlusByte
    rw [if_neg (by simp [hc.1]), if_pos hc.2, Char.ofNat_toNat]
    rfl

/-- String-level form of `concatMap_quote_keep`. -/
lemma quote_plus_keep (safe : List Nat) (s : String)
    (h : ∀ c ∈ s.data, c.toNat ≠ 32 ∧ (isAlwaysSafe c.toNat || safe.contains c.toNat) = true) :
    quote_plus safe s = s := by
  unfold quote_plus
  rw [concatMap_quote_keep safe s.data h]

/-- Characters of a Python join come from the separator or from a joined
string. -/
lemma mem_data_pyJoin (sep : String) (kws : List String) (c : Char)
    (hc : c ∈ (pyJoin sep kws).data) : c ∈ sep.data ∨ ∃ k ∈ kws, c ∈ k.data := by
  induction kws with
  | nil => cases hc
  | cons x xs ih =>
    cases xs with
    | nil => exact Or.inr ⟨x, by simp, hc⟩
    | cons y ys =>
      have hc2 : c ∈ ((x ++ sep) ++ pyJoin sep (y :: ys)).data := hc
      rw [String.data_append, String.data_append] at hc2
      rcases List.mem_append.mp hc2 with h1 | h1
      · rcases List.mem_append.mp h1 with h2 | h2
        · exact Or.inr ⟨x, by simp, h2⟩
        · exact Or.inl h2
      · rcases ih h1 with h2 | ⟨k, hk, hck⟩
        · exact Or.inl h2
        · exact Or.inr ⟨k, List.mem_cons_of_mem x hk, hck⟩

/-- First encoding pass of the query value: on all-safe keywords,
`quote_plus` of the space-join is the plus-join (each space becomes a
literal `+`, safe characters pass through). -/
lemma quote_plus_join_safe (kws : List String)
    (h : ∀ k ∈ kws, ∀ c ∈ k.data, isAlwaysSafe c.toNat = true) :
    quote_plus [] (pyJoin " " kws) = pyJoin "+" kws := by
  have hkeep : ∀ k ∈ kws, quote_plus [] k = k := by
    intro k hk
    apply quote_plus_keep
    intro c hc
    have hs := h k hk c hc
    exact ⟨fun he => absurd (he ▸ hs) (by decide), by simp [hs]⟩
  induction kws with
  | nil => rfl
  | cons x xs ih =>
    cases xs with
    | nil => exact hkeep x (by simp)
    | cons y ys =>
      show quote_plus [] ((x ++ " ") ++ pyJoin " " (y :: ys))
        = (x ++ "+") ++ pyJoin "+" (y :: ys)
      rw [quote_plus_append, quote_plus_append,
        hkeep x (by simp),
        show quote_plus [] " " = "+" from rfl,
        ih (fun k hk => h k (List.mem_cons_of_mem x hk))
          (fun k hk => hkeep k (List.mem_cons_of_mem x hk))]

/-- Second encoding pass (`urlencode` with `safe='+'`): the plus-join of
all-safe keywords passes through unchanged — the separator `+` is in the
safe set and is NOT re-encoded. -/
lemma quote_plus_plusjoin (kws : List String)
    (h : ∀ k ∈ kws, ∀ c ∈ k.data, isAlwaysSafe c.toNat = true) :
    quote_plus [43] (pyJoin "+" kws) = pyJoin "+" kws := by
  apply quote_plus_keep
  intro c hc
  rcases mem_data_pyJoin "+" kws c hc with h1 | ⟨k, hk, hck⟩
  · have hp : c = '+' := by simpa using h1
    subst hp
    exact ⟨by decide, by decide⟩
  · have hs := h k hk c hck
    exact ⟨fun he => absurd (he ▸ hs) (by decide), by simp [hs]⟩

/-- Valid lowercased entity types are all-safe and pass through the second
encoding pass unchanged. -/
lemma quote_plus_type (ty : String)
    (h : pyLower ty ∈ (["repositories", "issues", "wikis"] : List String)) :
    quote_plus [43] (pyLower ty) = pyLower ty := by
  rcases List.mem_cons.mp h with h1 | h1
  · rw [h1]; decide
  rcases List.mem_cons.mp h1 with h2 | h2
  · rw [h2]; decide
  rcases List.mem_cons.mp h2 with h3 | h3
  · rw [h3]; decide
  cases h3

/-- C5 (corrected).  First part: for every non-empty keyword list of safe
characters (ASCII letters, digits, `_.-~`) and valid entity type, the built
URL is literally `https://github.com/search?q=<keywords joined by '+'>`
`&type=<lowercased type>` — an absolute URL with path `/search`, the `+`
separator NOT percent-encoded.  Second part: any other query-unsafe ASCII
character of a keyword is percent-encoded TWICE, not once: `quote_plus`
first yields `%XX`, then `urlencode`'s second `quote_plus` pass re-encodes
the `%` as `%25`, leaving `%25XX` in the URL. -/
theorem build_search_url_shape :
    (∀ (keywords : List String) (ty : String),
        keywords ≠ [] →
        (∀ k ∈ keywords, ∀ c ∈ k.data, isAlwaysSafe c.toNat = true) →
        pyLower ty ∈ (["repositories", "issues", "wikis"] : List String) →
        build_search_url keywords ty
          = "https://github.com/search?q=" ++ pyJoin "+" keywords ++ "&type=" ++ pyLower ty)
    ∧ (∀ c : Char, c.toNat < 128 → isAlwaysSafe c.toNat = false → c.toNat ≠ 32 →
        quote_plus [43] (quote_plus [] (String.mk [c]))
          = String.mk ['%', '2', '5', hexDigit (c.toNat / 16), hexDigit (c.toNat % 16)]) := by
  constructor
  · intro keywords ty _ hsafe hty
    show "https://github.com/search" ++ "?" ++
        pyJoin "&"
          [quote_plus [43] "q" ++ "=" ++ quote_plus [43] (quote_plus [] (pyJoin " " keywords)),
           quote_plus [43] "type" ++ "=" ++ quote_plus [43] (pyLower ty)]
      = _
    rw [show ∀ a b : String, pyJoin "&" [a, b] = (a ++ "&") ++ b from fun a b => rfl]
    rw [show quote_plus [43] "q" = "q" from rfl,
      show quote_plus [43] "type" = "type" from rfl,
      quote_plus_join_safe keywords hsafe, quote_plus_plusjoin keywords hsafe,
      quote_plus_type ty hty]
    rw [show ("https://github.com/search?q=" : String)
        = "https://github.com/search" ++ "?" ++ "q" ++ "=" from rfl,
      show ("&type=" : String) = "&" ++ "type" ++ "=" from rfl]
    apply String.ext
    simp only [String.data_append, List.append_assoc]
  · intro c hlt hsafe h32
    have hinner : quote_plus [] (String.mk [c]) = String.mk (pctEncode c.toNat) := by
      unfold quote_plus
      show String.mk (quotePlusByte [] c.toNat ++ []) = _
      rw [List.append_nil]
      unfold quotePlusByte
      rw [if_neg (by simp [h32]), if_neg (by simp [hsafe])]
    rw [hinner]
    unfold quote_plus pctEncode
    show String.mk (quotePlusByte [43] ('%'.toNat)
        ++ (quotePlusByte [43] ((hexDigit (c.toNat / 16)).toNat)
          ++ (quotePlusByte [43] ((hexDigit (c.toNat % 16)).toNat) ++ []))) = _
    have hhex : ∀ m, m < 16 → quotePlusByte [43] ((hexDigit m).toNat) = [hexDigit m] := by
      decide
    rw [show quotePlusByte [43] ('%'.toNat) = ['%', '2', '5'] from rfl,
      hhex _ (by omega), hhex _ (by omega)]
    rfl

/-- Witness for C5's theorem: the repository's own keyword set builds the
expected URL, and the unsafe byte `&` comes out doubly encoded as `%2526`. -/
theorem build_search_url_shape_witness :
    build_search_url ["openstack", "nova", "css"] "Repositories"
      = "https://github.com/search?q=" ++ pyJoin "+" ["openstack", "nova", "css"]
          ++ "&type=" ++ pyLower "Repositories"
    ∧ quote_plus [43] (quote_plus [] (String.mk ['&']))
      = String.mk ['%', '2', '5', hexDigit ('&'.toNat / 16), hexDigit ('&'.toNat % 16)] :=
  ⟨build_search_url_shape.1 ["openstack", "nova", "css"] "Repositories"
      (by decide) (by decide) (by decide),
   build_search_url_shape.2 '&' (by decide) (by decide) (by decide)⟩

/-- C5 counterexample.  For the keyword `a&b` the query-unsafe `&` is
percent-encoded twice (`a%2526b`), not once (`a%26b`): "all other
query-unsafe characters in the keywords percent-encoded (exactly once)" is
false on the code. -/
theorem build_search_url_double_encoding_cex :
    build_search_url ["a&b"] "repositories"
      = "https://github.com/search?q=a%2526b&type=repositories"
    ∧ build_search_url ["a&b"] "repositories"
      ≠ "https://github.com/search?q=a%26b&type=repositories" := by
  decide

end GithubCrawler
